import Mathlib

/-!
Shallow embedding of the job-queue frontend `src/frontend/src/Page1.tsx` of
the AsusLabelWeb repository, together with proofs about the behaviour the
specification describes: the EventSource merge of job events, the download
and cancel affordances, the progress rendering, the status labels, the
recent-path storage helpers and the job-submission guard.

Machine numbers are modelled exactly where it matters: event ids are
integers, the progress fraction is a rational number, and the JavaScript
rounding `Math.round` is `⌊x + 1/2⌋` (round half towards positive
infinity), which agrees with the double-precision evaluation at every
input used below.
-/

namespace AsusLabel

/-- A JSON value, the result of a successful `JSON.parse`. -/
inductive Json where
  | null : Json
  | bool (b : Bool) : Json
  | num (q : ℚ) : Json
  | str (s : String) : Json
  | arr (items : List Json) : Json
  | obj (fields : List (String × Json)) : Json

/-- `type JobStatus = 'queued' | 'running' | 'retrying' | 'completed' | 'failed' | 'cancelled'`
(Page1.tsx line 62). -/
inductive JobStatus where
  | queued : JobStatus
  | running : JobStatus
  | retrying : JobStatus
  | completed : JobStatus
  | failed : JobStatus
  | cancelled : JobStatus
deriving DecidableEq

/-- `interface JobEvent` (Page1.tsx lines 44-50); `metadata` is a
`Record<string, unknown>`, modelled as a list of key/value pairs. -/
structure JobEvent where
  event_id : Int
  created_at : String
  level : String
  message : String
  metadata : List (String × Json)

/-- `interface AnalysisResult` (Page1.tsx lines 12-21). -/
structure AnalysisResult where
  id : Int
  filename : String
  model_name : String
  voltage : String
  typ_batt_capacity_wh : String
  typ_capacity_mah : String
  rated_capacity_mah : String
  rated_energy_wh : String

/-- `interface JobSummary` (Page1.tsx lines 28-42).  Nullable fields are
`Option`; `progress` is the fraction in `[0,1]` of the data model. -/
structure JobSummary where
  job_id : String
  owner_id : String
  source_path : String
  status : JobStatus
  display_name : String
  progress : ℚ
  total_files : Nat
  processed_files : Nat
  current_file : Option String
  error : Option String
  download_path : Option String
  created_at : String
  updated_at : String

/-- `interface JobDetail extends JobSummary` (Page1.tsx lines 52-56). -/
structure JobDetail extends JobSummary where
  input_manifest : List (List (String × Json))
  output_manifest : List AnalysisResult
  events : List JobEvent

/-- `STATUS_LABELS` (Page1.tsx lines 73-80), a total record over `JobStatus`. -/
def STATUS_LABELS : JobStatus → String
  | JobStatus.queued => "等待中"
  | JobStatus.retrying => "重試中"
  | JobStatus.running => "執行中"
  | JobStatus.completed => "已完成"
  | JobStatus.cancelled => "已取消"
  | JobStatus.failed => "失敗"

/-- `FINAL_STATUSES` (Page1.tsx line 81). -/
def FINAL_STATUSES : List JobStatus :=
  [JobStatus.completed, JobStatus.failed, JobStatus.cancelled]

/-- `MAX_RECENT_PATHS` (Page1.tsx line 83). -/
def MAX_RECENT_PATHS : Nat := 3

/-- The browser storage observed by `parseStoredList` for one key: the
window may be undefined, the key may be absent, or it holds a raw string
whose `JSON.parse` outcome is `parsed` (`none` models a thrown
`SyntaxError`). -/
inductive StoredValue where
  | noWindow : StoredValue
  | absent : StoredValue
  | raw (contents : String) (parsed : Option Json) : StoredValue

/-- `typeof item === 'string'` on a JSON value. -/
def isJsonString : Json → Bool
  | Json.str _ => true
  | _ => false

/-- `parseStoredList` (Page1.tsx lines 86-101).  Note `if (!raw)` is the
JavaScript falsiness test, true for both `null` and the empty string;
a parse error or a non-array parse falls through to the fallback. -/
def parseStoredList (stored : StoredValue) (fallback : List String) : List String :=
  match stored with
  | StoredValue.noWindow => fallback
  | StoredValue.absent => fallback
  | StoredValue.raw contents parsed =>
    if contents = "" then fallback
    else
      match parsed with
      | some (Json.arr items) =>
        ((items.filter isJsonString).take MAX_RECENT_PATHS).filterMap
          (fun item => match item with
            | Json.str s => some s
            | _ => none)
      | _ => fallback

/-- Malformed storage content for the recent-paths key: a present,
non-empty raw value that either fails to parse or parses to a non-array. -/
def isMalformedRecentPaths : StoredValue → Bool
  | StoredValue.raw contents none => contents != ""
  | StoredValue.raw contents (some (Json.arr _)) => false && (contents != "")
  | StoredValue.raw contents (some _) => contents != ""
  | _ => false

/-- `rememberPath` (Page1.tsx lines 177-192): the state update
`[path, ...previous.filter((item) => item !== path)].slice(0, MAX_RECENT_PATHS)`. -/
def rememberPath (path : String) (previous : List String) : List String :=
  (path :: previous.filter (fun item => item != path)).take MAX_RECENT_PATHS

/-- The comparator `(a, b) => a.event_id - b.event_id` used by the
`onmessage` handler, as the ascending stable sort it induces
(JavaScript `Array.prototype.sort` is stable). -/
def sortByEventId (events : List JobEvent) : List JobEvent :=
  events.mergeSort (fun a b => decide (a.event_id ≤ b.event_id))

/-- The `setJobEvents` updater inside `eventSource.onmessage`
(Page1.tsx lines 257-263): drop the payload if its `event_id` already
occurs, otherwise append it and sort by `event_id`. -/
def mergeJobEvent (previous : List JobEvent) (payload : JobEvent) : List JobEvent :=
  if previous.any (fun item => item.event_id == payload.event_id) then previous
  else sortByEventId (previous ++ [payload])

/-- `downloadUrl` (Page1.tsx lines 425-429): a URL is rendered exactly
when `jobDetail?.download_path` is truthy (non-null and non-empty);
the job status is not consulted. -/
def downloadUrl (encodeURIComponent : String → String)
    (apiBaseUrl ownerIdSafe : String) (jobDetail : Option JobDetail) : Option String :=
  match jobDetail with
  | none => none
  | some detail =>
    match detail.download_path with
    | none => none
    | some p =>
      if p = "" then none
      else some (apiBaseUrl ++ ("/api/jobs/") ++ detail.job_id ++
        ("/download?owner_id=") ++ encodeURIComponent ownerIdSafe)

/-- `isJobRunning` (Page1.tsx line 432):
`Boolean(selectedJob && !FINAL_STATUSES.includes(selectedJob.status))`.
The cancel button (lines 799-807) is rendered exactly when this is true. -/
def isJobRunning (selectedJob : Option JobSummary) : Bool :=
  match selectedJob with
  | none => false
  | some job => !(FINAL_STATUSES.contains job.status)

/-- JavaScript `Math.round` on exact arithmetic: round half towards
positive infinity. -/
def mathRound (x : ℚ) : Int := ⌊x + 1/2⌋

/-- The rendered percentage `Math.round(job.progress * 100)`
(Page1.tsx lines 650 and 862). -/
def displayedPercent (progress : ℚ) : Int := mathRound (progress * 100)

/-- The list of the six job statuses, in declaration order of the union
type at Page1.tsx line 62. -/
def allJobStatuses : List JobStatus :=
  [JobStatus.queued, JobStatus.running, JobStatus.retrying,
   JobStatus.completed, JobStatus.failed, JobStatus.cancelled]

/-- The `POST /api/jobs` payload built by `handleAnalyze`
(Page1.tsx lines 392-396). -/
structure CreateJobPayload where
  owner_id : String
  source_path : String
  files : List String

/-- The externally observable action of one `handleAnalyze` call. -/
inductive AnalyzeAction where
  | rejectEmptySelection (message : String) : AnalyzeAction
  | submitJob (payload : CreateJobPayload) : AnalyzeAction

/-- `handleAnalyze` (Page1.tsx lines 385-409): with no selected files it
sets a user-visible error and returns without issuing a request;
otherwise it POSTs the creation payload. -/
def handleAnalyze (ownerIdSafe networkPath : String)
    (selectedFiles : List String) : AnalyzeAction :=
  if selectedFiles.length = 0 then
    AnalyzeAction.rejectEmptySelection ("請選擇要分析的檔案。")
  else
    AnalyzeAction.submitJob ⟨ownerIdSafe, networkPath, selectedFiles⟩

/-- The `disabled` predicate of the submit button (Page1.tsx line 750):
`submittingJob || selectedFiles.size === 0`. -/
def analyzeButtonDisabled (submittingJob : Bool) (selectedFilesSize : Nat) : Bool :=
  submittingJob || (selectedFilesSize == 0)

/-- The primitive side effects performed by the subscription effects. -/
inductive EffectAction where
  | closeES : EffectAction
  | clearJobDetail : EffectAction
  | clearJobEvents : EffectAction
  | fetchDetail (jobId : String) : EffectAction
  | openSubscription (jobId : String) : EffectAction
deriving DecidableEq

/-- `subscribeToJobEvents` (Page1.tsx lines 245-276) as its action trace:
close any previous stream, then open the new one when `window.EventSource`
exists. -/
def subscribeToJobEvents (eventSourceSupported : Bool) (jobId : String) : List EffectAction :=
  [EffectAction.closeES] ++
    (if eventSourceSupported then [EffectAction.openSubscription jobId] else [])

/-- The `selectedJobId` effect (Page1.tsx lines 292-301) as its action
trace: with a selection it calls `fetchJobDetail` and only then
`subscribeToJobEvents`; with none it closes the stream and clears state. -/
def selectedJobIdEffect (eventSourceSupported : Bool)
    (selectedJobId : Option String) : List EffectAction :=
  match selectedJobId with
  | none => [EffectAction.closeES, EffectAction.clearJobDetail, EffectAction.clearJobEvents]
  | some jobId => [EffectAction.fetchDetail jobId] ++ subscribeToJobEvents eventSourceSupported jobId

/-- The terminal-status effect (Page1.tsx lines 303-308): once the fetched
detail is terminal, close the event stream. -/
def terminalStatusEffect (jobDetail : Option JobDetail) : List EffectAction :=
  match jobDetail with
  | none => []
  | some detail =>
    if FINAL_STATUSES.contains detail.status then [EffectAction.closeES] else []

/-- The subscriber-side state touched by `fetchJobDetail`. -/
structure SubscriberState where
  jobDetail : Option JobDetail
  jobEvents : List JobEvent

/-- The state update performed when a `fetchJobDetail` response arrives
(Page1.tsx lines 200-202): the detail is stored and the event list is
replaced by the full stored history. -/
def applyFetchJobDetailResponse (response : JobDetail) (_state : SubscriberState) :
    SubscriberState :=
  ⟨some response, response.events⟩

/-- `fetchDetail` precedes every `openSubscription` for the same job in a
trace of effect actions. -/
def FetchPrecedesOpen (actions : List EffectAction) (jobId : String) : Prop :=
  ∀ i : Nat, actions[i]? = some (EffectAction.openSubscription jobId) →
    ∃ j : Nat, j < i ∧ actions[j]? = some (EffectAction.fetchDetail jobId)

/-- A job event carrying only an id, used to instantiate theorems. -/
def sampleEvent (n : Int) : JobEvent :=
  ⟨n, ("2024-01-01T00:00:00Z"), ("info"), ("message"), []⟩

lemma sortByEventId_sorted_le (l : List JobEvent) :
    (sortByEventId l).Pairwise (fun a b => a.event_id ≤ b.event_id) := by
  have h := @List.sorted_mergeSort JobEvent
    (fun a b : JobEvent => decide (a.event_id ≤ b.event_id))
    (fun a b c hab hbc => by
      simp only [decide_eq_true_eq] at hab hbc ⊢
      exact le_trans hab hbc)
    (fun a b => by
      simp only [Bool.or_eq_true, decide_eq_true_eq]
      exact le_total a.event_id b.event_id) l
  exact h.imp (fun hab => by simpa using hab)

lemma sortByEventId_perm (l : List JobEvent) : (sortByEventId l).Perm l :=
  List.mergeSort_perm l _

lemma sortByEventId_sorted_lt (l : List JobEvent)
    (hnd : (l.map JobEvent.event_id).Nodup) :
    ((sortByEventId l).map JobEvent.event_id).Sorted (· < ·) := by
  have hle := sortByEventId_sorted_le l
  have hperm := (sortByEventId_perm l).map JobEvent.event_id
  have hndres : ((sortByEventId l).map JobEvent.event_id).Nodup :=
    hperm.nodup_iff.mpr hnd
  have hne : (sortByEventId l).Pairwise (fun a b => JobEvent.event_id a ≠ JobEvent.event_id b) :=
    List.pairwise_map.mp hndres
  have hlt : (sortByEventId l).Pairwise (fun a b => a.event_id < b.event_id) :=
    (hle.and hne).imp (fun hab => lt_of_le_of_ne hab.1 hab.2)
  exact List.pairwise_map.mpr hlt

/-- C1: for every subscriber event list whose event ids are strictly
increasing and every newly delivered event, the merge performed by the
EventSource `onmessage` handler (duplicate check by `event_id`, append,
sort by `event_id`) again yields a list whose event ids are strictly
increasing, so no event is ever presented out of order for a given job. -/
theorem mergeJobEvent_preserves_sorted (previous : List JobEvent) (payload : JobEvent)
    (hsorted : (previous.map JobEvent.event_id).Sorted (· < ·)) :
    ((mergeJobEvent previous payload).map JobEvent.event_id).Sorted (· < ·) := by
  unfold mergeJobEvent
  by_cases hdup : previous.any (fun item => item.event_id == payload.event_id) = true
  · simpa [hdup] using hsorted
  · rw [if_neg hdup]
    apply sortByEventId_sorted_lt
    have hfresh : ∀ item ∈ previous, item.event_id ≠ payload.event_id := by
      intro item hmem heq
      exact hdup (List.any_eq_true.mpr ⟨item, hmem, by simpa using heq⟩)
    have hndprev : (previous.map JobEvent.event_id).Nodup := hsorted.nodup
    rw [List.map_append]
    rw [List.nodup_append]
    refine ⟨hndprev, List.nodup_singleton _, ?_⟩
    intro x hx hx2
    simp only [List.map_cons, List.map_nil, List.mem_singleton] at hx2
    obtain ⟨item, hmem, rfl⟩ := List.mem_map.mp hx
    exact hfresh item hmem hx2

/-- Witness for C1 at a concrete sorted list and a fresh event. -/
theorem mergeJobEvent_preserves_sorted_witness :
    ((mergeJobEvent [sampleEvent 1, sampleEvent 3] (sampleEvent 2)).map
      JobEvent.event_id).Sorted (· < ·) :=
  mergeJobEvent_preserves_sorted [sampleEvent 1, sampleEvent 3] (sampleEvent 2) (by decide)

/-- C4: delivery is idempotent — if the delivered event id already occurs
in the subscriber list, the `onmessage` merge returns the list unchanged. -/
theorem mergeJobEvent_duplicate_noop (previous : List JobEvent) (payload : JobEvent)
    (hdup : ∃ item ∈ previous, item.event_id = payload.event_id) :
    mergeJobEvent previous payload = previous := by
  unfold mergeJobEvent
  obtain ⟨item, hmem, heq⟩ := hdup
  rw [if_pos (List.any_eq_true.mpr ⟨item, hmem, by simpa using heq⟩)]

/-- Witness for C4 at a concrete duplicate delivery. -/
theorem mergeJobEvent_duplicate_noop_witness :
    mergeJobEvent [sampleEvent 1, sampleEvent 2] (sampleEvent 2) =
      [sampleEvent 1, sampleEvent 2] :=
  mergeJobEvent_duplicate_noop [sampleEvent 1, sampleEvent 2] (sampleEvent 2)
    ⟨sampleEvent 2, by simp, rfl⟩

/-- A job detail snapshot with a non-completed status but a non-null
download path; the component never receives one from the specified
backend, but nothing in `downloadUrl` rules it out. -/
def failedDetailWithArtifact : JobDetail :=
  ⟨⟨("job-1"), ("anonymous"), ("\\\\server\\share"), JobStatus.failed, ("sample"),
    1/2, 2, 1, none, some ("boom"), some ("out.xlsx"), (""), ("")⟩, [], [], []⟩

/-- C2 counterexample: the claim says a download URL is rendered only when
the status is `completed`, yet on a snapshot with status `failed` and a
non-null `download_path` the rendered URL is not null — `downloadUrl`
never consults the status. -/
theorem downloadUrl_ignores_status_counterexample :
    failedDetailWithArtifact.status ≠ JobStatus.completed ∧
    downloadUrl (fun s => s) ("http://localhost:8000") ("anonymous")
      (some failedDetailWithArtifact) ≠ none := by
  constructor
  · decide
  · simp [downloadUrl, failedDetailWithArtifact]

/-- C2 amended: the frontend renders a download URL exactly when the
detail snapshot is present and its `download_path` is non-null and
non-empty; the status field plays no role in the decision. -/
theorem downloadUrl_iff_download_path (encodeURIComponent : String → String)
    (apiBaseUrl ownerIdSafe : String) (jobDetail : Option JobDetail) :
    downloadUrl encodeURIComponent apiBaseUrl ownerIdSafe jobDetail ≠ none ↔
      ∃ detail p, jobDetail = some detail ∧ detail.download_path = some p ∧ p ≠ "" := by
  cases jobDetail with
  | none => simp [downloadUrl]
  | some detail =>
    cases hp : detail.download_path with
    | none => simp [downloadUrl, hp]
    | some p =>
      by_cases hpe : p = "" <;> simp [downloadUrl, hp, hpe]

/-- C3: the cancel action is offered for a selected job exactly when its
status is non-terminal, i.e. exactly when the status lies in
`{queued, running, retrying}`, equivalently outside `FINAL_STATUSES`;
with no selected job it is absent. -/
theorem isJobRunning_iff_nonTerminal (job : JobSummary) :
    (isJobRunning (some job) = true ↔
      job.status ∈ [JobStatus.queued, JobStatus.running, JobStatus.retrying]) ∧
    (isJobRunning (some job) = true ↔ job.status ∉ FINAL_STATUSES) ∧
    isJobRunning none = false := by
  refine ⟨?_, ?_, rfl⟩ <;>
    cases hs : job.status <;> simp [isJobRunning, FINAL_STATUSES, hs]

/-- C5: subscription follows replay-then-push — in the effect that reacts
to a newly selected job id, the job-detail fetch precedes every opening of
the live EventSource; a fetched detail replaces the event list by the full
stored history; and the live subscription is closed exactly when the
fetched detail carries a terminal status. -/
theorem replay_then_push (eventSourceSupported : Bool) (jobId : String) :
    FetchPrecedesOpen (selectedJobIdEffect eventSourceSupported (some jobId)) jobId ∧
    (∀ response state, (applyFetchJobDetailResponse response state).jobEvents = response.events) ∧
    (∀ detail : JobDetail,
      detail.status ∈ FINAL_STATUSES ↔ terminalStatusEffect (some detail) = [EffectAction.closeES]) := by
  refine ⟨?_, fun response state => rfl, ?_⟩
  · intro i hi
    refine ⟨0, ?_, rfl⟩
    rcases Nat.eq_zero_or_pos i with h0 | h0
    · subst h0
      simp [selectedJobIdEffect, subscribeToJobEvents] at hi
    · exact h0
  · intro detail
    cases hs : detail.status <;>
      simp [terminalStatusEffect, FINAL_STATUSES, hs]

/-- Witness for C5: in the concrete trace for a selected job with
EventSource support, the subscription opening at index 2 is preceded by
the detail fetch. -/
theorem replay_then_push_witness :
    ∃ j : Nat, j < 2 ∧ (selectedJobIdEffect true (some ("job-1")))[j]? =
      some (EffectAction.fetchDetail ("job-1")) :=
  (replay_then_push true ("job-1")).1 2 rfl

/-- C6 counterexample: the claim says the displayed percentage equals 100
exactly when `progress = 1.0`, but `Math.round(progress * 100)` already
yields 100 at `progress = 255/256` (a value exactly representable in
binary floating point, where `255/256 * 100 = 99.609375` is computed
exactly and rounds to 100). -/
theorem displayedPercent_100_counterexample :
    displayedPercent (255/256) = 100 ∧ (255/256 : ℚ) ≠ 1 ∧
      (0 : ℚ) ≤ 255/256 ∧ (255/256 : ℚ) ≤ 1 := by
  refine ⟨?_, by norm_num, by norm_num, by norm_num⟩
  norm_num [displayedPercent, mathRound]

/-- C6 amended: for every progress fraction in `[0,1]` the displayed value
`Math.round(progress * 100)` is an integer in `[0,100]`, and it equals 100
whenever `progress = 1.0` (the converse fails: values of `progress` at or
above `199/200` already display as 100). -/
theorem displayedPercent_bounds (p : ℚ) (h0 : 0 ≤ p) (h1 : p ≤ 1) :
    0 ≤ displayedPercent p ∧ displayedPercent p ≤ 100 ∧
      (p = 1 → displayedPercent p = 100) := by
  unfold displayedPercent mathRound
  refine ⟨?_, ?_, ?_⟩
  · exact Int.floor_nonneg.mpr (by nlinarith)
  · have hlt : ⌊p * 100 + 1/2⌋ < 101 := by
      rw [Int.floor_lt]
      push_cast
      nlinarith
    omega
  · intro hp
    subst hp
    norm_num

/-- Witness for C6 at the concrete progress value 1/2. -/
theorem displayedPercent_bounds_witness :
    0 ≤ displayedPercent (1/2) ∧ displayedPercent (1/2) ≤ 100 ∧
      ((1/2 : ℚ) = 1 → displayedPercent (1/2) = 100) :=
  displayedPercent_bounds (1/2) (by norm_num) (by norm_num)

/-- C7: the client job-status type has exactly the six states of the
state machine, and the status-label mapping assigns every one of them a
non-empty rendering. -/
theorem jobStatus_exhaustive_and_labels_total :
    (∀ s : JobStatus, s ∈ allJobStatuses) ∧
    allJobStatuses.Nodup ∧ allJobStatuses.length = 6 ∧
    (∀ s : JobStatus, STATUS_LABELS s ≠ "") := by
  refine ⟨fun s => ?_, by decide, rfl, fun s => ?_⟩
  · cases s <;> simp [allJobStatuses]
  · cases s <;> simp [STATUS_LABELS]

/-- C8: `parseStoredList` is total and bounded — on every possible
storage content for the recent-paths key (window undefined, key absent,
empty string, parse failure, non-array value, or an array with arbitrary
members) it returns a list of strings of length at most
`MAX_RECENT_PATHS = 3`, and on malformed content it returns the fallback
list `[]` used at the call site. -/
theorem parseStoredList_total_bounded (stored : StoredValue) :
    (parseStoredList stored []).length ≤ MAX_RECENT_PATHS ∧
    (isMalformedRecentPaths stored = true → parseStoredList stored [] = []) := by
  constructor
  · cases stored with
    | noWindow => simp [parseStoredList]
    | absent => simp [parseStoredList]
    | raw contents parsed =>
      by_cases hc : contents = ""
      · simp [parseStoredList, hc]
      · cases parsed with
        | none => simp [parseStoredList, hc]
        | some j =>
          cases j with
          | arr items =>
            simp only [parseStoredList, if_neg hc]
            calc (((items.filter isJsonString).take MAX_RECENT_PATHS).filterMap
                    (fun item => match item with
                      | Json.str s => some s
                      | _ => none)).length
                ≤ ((items.filter isJsonString).take MAX_RECENT_PATHS).length :=
                  List.length_filterMap_le _ _
              _ ≤ MAX_RECENT_PATHS := by
                  simp [List.length_take]
          | null => simp [parseStoredList, hc]
          | bool b => simp [parseStoredList, hc]
          | num q => simp [parseStoredList, hc]
          | str s => simp [parseStoredList, hc]
          | obj fields => simp [parseStoredList, hc]
  · intro hmal
    cases stored with
    | noWindow => rfl
    | absent => rfl
    | raw contents parsed =>
      have hc : ¬ contents = "" := by
        cases parsed with
        | none => simp [isMalformedRecentPaths] at hmal; exact hmal
        | some j =>
          cases j <;> simp_all [isMalformedRecentPaths]
      cases parsed with
      | none => simp [parseStoredList, hc]
      | some j =>
        cases j with
        | arr items => simp [isMalformedRecentPaths] at hmal
        | null => simp [parseStoredList, hc]
        | bool b => simp [parseStoredList, hc]
        | num q => simp [parseStoredList, hc]
        | str s => simp [parseStoredList, hc]
        | obj fields => simp [parseStoredList, hc]

/-- Witness for C8 at a concrete malformed storage content. -/
theorem parseStoredList_total_bounded_witness :
    (parseStoredList (StoredValue.raw ("not json") none) []).length ≤ MAX_RECENT_PATHS ∧
    parseStoredList (StoredValue.raw ("not json") none) [] = [] :=
  ⟨(parseStoredList_total_bounded (StoredValue.raw ("not json") none)).1,
   (parseStoredList_total_bounded (StoredValue.raw ("not json") none)).2 (by decide)⟩

/-- C9: `rememberPath` keeps the recent-paths invariant — the result
starts with the remembered path, stays within `MAX_RECENT_PATHS = 3`
entries, preserves freedom from duplicates, and remembering the same path
twice in a row equals remembering it once. -/
theorem rememberPath_invariant (path : String) (previous : List String) :
    (rememberPath path previous).head? = some path ∧
    (rememberPath path previous).length ≤ MAX_RECENT_PATHS ∧
    (previous.Nodup → (rememberPath path previous).Nodup) ∧
    rememberPath path (rememberPath path previous) = rememberPath path previous := by
  refine ⟨?_, ?_, ?_, ?_⟩
  · simp [rememberPath, List.head?_take, MAX_RECENT_PATHS]
  · simp only [rememberPath, List.length_take]
    omega
  · intro hnd
    apply List.Nodup.sublist (List.take_sublist _ _)
    refine List.nodup_cons.mpr ⟨?_, hnd.filter _⟩
    intro hmem
    have := (List.mem_filter.mp hmem).2
    simp at this
  · show (path :: (rememberPath path previous).filter
      (fun item => item != path)).take MAX_RECENT_PATHS = rememberPath path previous
    have hinner : rememberPath path previous =
        path :: (previous.filter (fun item => item != path)).take 2 := rfl
    rw [hinner]
    have hfilter : (path :: (previous.filter (fun item => item != path)).take 2).filter
        (fun item => item != path) =
        (previous.filter (fun item => item != path)).take 2 := by
      rw [List.filter_cons]
      simp only [bne_self_eq_false, Bool.false_eq_true, if_neg]
      apply List.filter_eq_self.mpr
      intro a ha
      exact List.mem_filter.mp
        ((List.take_sublist 2 (previous.filter (fun item => item != path))).mem ha) |>.2
    rw [hfilter]
    show (path :: ((previous.filter (fun item => item != path)).take 2)).take 3 =
      path :: (previous.filter (fun item => item != path)).take 2
    simp [List.take_succ_cons, List.take_take]

/-- Witness for C9 at a concrete duplicate-free list. -/
theorem rememberPath_invariant_witness :
    (rememberPath ("b") [("a"), ("c")]).head? = some ("b") ∧
    (rememberPath ("b") [("a"), ("c")]).Nodup :=
  ⟨(rememberPath_invariant ("b") [("a"), ("c")]).1,
   (rememberPath_invariant ("b") [("a"), ("c")]).2.2.1 (by decide)⟩

/-- C10: job submission requires a non-empty file selection — with no
selected files `handleAnalyze` issues no creation request and reports the
user-visible error while the submit button is disabled; with at least one
selected file it issues exactly the creation request for those files, and
the button is enabled when no submission is in flight. -/
theorem handleAnalyze_requires_selection (ownerIdSafe networkPath : String)
    (selectedFiles : List String) :
    (selectedFiles = [] →
      handleAnalyze ownerIdSafe networkPath selectedFiles =
        AnalyzeAction.rejectEmptySelection ("請選擇要分析的檔案。") ∧
      ∀ submittingJob, analyzeButtonDisabled submittingJob selectedFiles.length = true) ∧
    (selectedFiles ≠ [] →
      handleAnalyze ownerIdSafe networkPath selectedFiles =
        AnalyzeAction.submitJob ⟨ownerIdSafe, networkPath, selectedFiles⟩ ∧
      analyzeButtonDisabled false selectedFiles.length = false) := by
  constructor
  · intro hempty
    subst hempty
    exact ⟨rfl, fun submittingJob => by cases submittingJob <;> rfl⟩
  · intro hne
    have hlen : selectedFiles.length ≠ 0 :=
      Nat.pos_iff_ne_zero.mp (List.length_pos.mpr hne)
    constructor
    · simp [handleAnalyze, hlen]
    · simp [analyzeButtonDisabled, hlen]

/-- Witness for C10 at an empty and a singleton selection. -/
theorem handleAnalyze_requires_selection_witness :
    handleAnalyze ("anonymous") ("\\\\server\\share") [] =
      AnalyzeAction.rejectEmptySelection ("請選擇要分析的檔案。") ∧
    handleAnalyze ("anonymous") ("\\\\server\\share") [("a.pdf")] =
      AnalyzeAction.submitJob ⟨("anonymous"), ("\\\\server\\share"), [("a.pdf")]⟩ :=
  ⟨((handleAnalyze_requires_selection ("anonymous") ("\\\\server\\share") []).1 rfl).1,
   ((handleAnalyze_requires_selection ("anonymous") ("\\\\server\\share") [("a.pdf")]).2
      (by simp)).1⟩

end AsusLabel
